import Mathlib

/-!
Verification of the Cardori Korean flashcard bot's core logic.

This file gives a shallow embedding of the spaced-repetition scheduler
(`class_interaction_objects.py`), the user/card store operations
(`class_users.py`) and the review sweep plus command parsing
(`class_bot.py`), and proves or refutes the specification's claims
about them.

Modelling conventions:
* Python floats that arise here are all small dyadic rationals
  (products of 10 with 3, 3.5, 1, 0.5, 0.75 and truncations), so they
  are represented exactly by `ℚ`.
* Timestamps (`datetime.datetime`) are represented as rational numbers
  of minutes; `datetime.timedelta(minutes=m)` is the number `m`, and
  `isoformat`/`fromisoformat` round-trips are identities.
* A Python `dict` used as an id-keyed card set is an association list
  `List (String × CardDict)` in insertion order, matching the
  insertion-order iteration of Python dicts.
* Fallible code (a raised `IndexError` / `ValueError`) is `Option` /
  an explicit error constructor.
-/

namespace Cardori

/-- Python `int(x)` applied to a (here always exactly representable)
float: truncation toward zero, i.e. floor for non-negative arguments
and ceiling for negative ones. -/
def pyTrunc (q : ℚ) : ℤ := if q < 0 then ⌈q⌉ else ⌊q⌋

/-- The three quiz ratings (the green, yellow and red reaction emojis
of `class_bot.py`, alias the keys of `FlashcardObject.FACTORS`). -/
inductive Rating where
  | good
  | okay
  | poor
deriving DecidableEq, Repr

/-- The `spaced_repetition` dictionary of a flashcard
(`class_interaction_objects.py`, `FlashcardObject.__init__`). -/
structure SRData where
  to_review : Bool
  last_reviewed : Option ℚ
  last_reminded : Option ℚ
  interval : ℚ
  learning_phase : Bool
  times_studied : Nat
deriving DecidableEq, Repr

/-- A stored flashcard dictionary, as it lives in the DynamoDB
`flashcard_set` map: `id`, `front`/`back` word-definition pairs, the
optional user-assigned `label` key, and the spaced-repetition state. -/
structure CardDict where
  id : String
  front_word : String
  front_dfn : String
  back_word : String
  back_dfn : String
  label : Option String
  sr : SRData
deriving DecidableEq, Repr

/-- The in-memory `FlashcardObject` of `class_interaction_objects.py`.
Its constructor takes only id, front, back and spaced-repetition data;
it has no `label` attribute. -/
structure FlashcardObject where
  id : String
  front_word : String
  front_dfn : String
  back_word : String
  back_dfn : String
  sr : SRData
deriving DecidableEq, Repr

/-- Embeds `int(FlashcardObject.LEARNING_THRESHOLD.total_seconds() / 60)` = 60. -/
def LEARNING_THRESHOLD_minutes : ℤ := 60

/-- Embeds `int(FlashcardObject.MIN_INTERVAL.total_seconds() / 60)` = 10. -/
def MIN_INTERVAL_minutes : ℤ := 10

/-- Embeds `int(FlashcardObject.MAX_INTERVAL.total_seconds() / 60)`: 30 days = 43200 minutes. -/
def MAX_INTERVAL_minutes : ℤ := 43200

/-- Embeds `FlashcardObject.INITIAL_INTERVAL.total_seconds() // 60` = 10.0. -/
def INITIAL_INTERVAL_minutes : ℚ := 10

/-- The default `spaced_repetition` dictionary built by
`FlashcardObject.__init__` when none is supplied. -/
def initialSR : SRData where
  to_review := false
  last_reviewed := none
  last_reminded := none
  interval := INITIAL_INTERVAL_minutes
  learning_phase := true
  times_studied := 0

/-- Embeds `FlashcardObject.FACTORS[rating][phase]`, with `phase` the string
`"Learning"` (`true`) or `"Review"` (`false`). -/
def FACTORS (r : Rating) (learning : Bool) : ℚ :=
  match r, learning with
  | .good, true => 3
  | .good, false => 3.5
  | .okay, _ => 1
  | .poor, true => 0.5
  | .poor, false => 0.75

/-- Embeds `FlashcardObject.calculate_factor`: looks the factor up from the
`(rating, phase)` table, the phase being `"Learning"` iff
`learning_phase` is set. -/
def calculate_factor (o : FlashcardObject) (r : Rating) : ℚ :=
  FACTORS r o.sr.learning_phase

/-- Embeds `FlashcardObject.calculate_points`: Good = 3, Okay = 1, Poor = 0. -/
def calculate_points (r : Rating) : Nat :=
  match r with
  | .good => 3
  | .okay => 1
  | .poor => 0

/-- Embeds `FlashcardObject.update_interval`, line for line:
`new_interval = int(interval) * factor`, then
`interval = min(new_interval, int(MAX...))`, then
`interval = max(new_interval, int(MIN...))` — note the source's second
assignment recomputes from `new_interval`, not from the min-clamped
value. -/
def update_interval (sr : SRData) (factor : ℚ) : SRData :=
  let new_interval : ℚ := (pyTrunc sr.interval : ℚ) * factor
  let sr1 := { sr with interval := min new_interval (MAX_INTERVAL_minutes : ℚ) }
  { sr1 with interval := max new_interval (MIN_INTERVAL_minutes : ℚ) }

/-- Embeds `FlashcardObject.update_learning_phase`:
`learning_phase = interval < 60`. -/
def update_learning_phase (sr : SRData) : SRData :=
  { sr with learning_phase := decide (sr.interval < (LEARNING_THRESHOLD_minutes : ℚ)) }

/-- Embeds `FlashcardObject.process_rating`: factor lookup, interval update,
phase recompute, then `to_review = False`, `last_reviewed = now`
(`datetime.datetime.now().isoformat()`), `times_studied += 1`;
returns the points earned. -/
def process_rating (o : FlashcardObject) (r : Rating) (now : ℚ) :
    FlashcardObject × Nat :=
  let factor := calculate_factor o r
  let sr1 := update_interval o.sr factor
  let sr2 := update_learning_phase sr1
  let sr3 := { sr2 with
    to_review := false
    last_reviewed := some now
    times_studied := sr2.times_studied + 1 }
  ({ o with sr := sr3 }, calculate_points r)

/-- Embeds `FlashcardObject.from_dict`: rebuilds the object from a stored
dictionary, passing only id, front, back and `spaced_repetition` to
the constructor — any `label` key of the stored dictionary is not
carried over (the object has no such attribute). -/
def from_dict (d : CardDict) : FlashcardObject where
  id := d.id
  front_word := d.front_word
  front_dfn := d.front_dfn
  back_word := d.back_word
  back_dfn := d.back_dfn
  sr := d.sr

/-- Embeds `FlashcardObject.to_dict`: emits id, front, back and a copy of the
spaced-repetition data with `interval` coerced through `int(...)` and
`last_reviewed` rendered in isoformat (identity here). The emitted
dictionary has no `label` key. -/
def to_dict (o : FlashcardObject) : CardDict where
  id := o.id
  front_word := o.front_word
  front_dfn := o.front_dfn
  back_word := o.back_word
  back_dfn := o.back_dfn
  label := none
  sr := { o.sr with interval := (pyTrunc o.sr.interval : ℚ) }

/-! ## The per-user card store (`class_users.py`)

A user's `flashcard_set` is a Python dict keyed by card id; we model
it as an association list in insertion order.  Assigning
`d[k] = v` replaces the value at `k` in place if the key is present,
otherwise appends a new entry. -/

/-- Python dict assignment `d[k] = v` on an id-keyed card set. -/
def assocSet : List (String × CardDict) → String → CardDict → List (String × CardDict)
  | [], k, v => [(k, v)]
  | (k', v') :: t, k, v =>
    if k' = k then (k', v) :: t else (k', v') :: assocSet t k v

/-- Python dict lookup `d.get(k)`. -/
def assocGet : List (String × CardDict) → String → Option CardDict
  | [], _ => none
  | (k', v') :: t, k => if k' = k then some v' else assocGet t k

/-- Embeds `Users.add_flashcard_to_set`: returns `False` without touching the
stored set when `len(user_flashcard_set) >= self.max_capacity` (100);
otherwise stores the card under its id and returns `True`. -/
def add_flashcard_to_set (fset : List (String × CardDict)) (d : CardDict) :
    Bool × List (String × CardDict) :=
  if fset.length ≥ 100 then (false, fset)
  else (true, assocSet fset d.id d)

/-- Embeds `Users.update_flashcard`: reads the stored set and writes it back
with `user_flashcard_set[flashcard_dict["id"]] = flashcard_dict`. -/
def update_flashcard (fset : List (String × CardDict)) (d : CardDict) :
    List (String × CardDict) :=
  assocSet fset d.id d

/-- One iteration of the loop in `Users.label_flashcards`: write
`label` into the stored dict at key `k`. -/
def setLabelAt (fset : List (String × CardDict)) (k : String) (lab : String) :
    List (String × CardDict) :=
  fset.map (fun p => if p.1 = k then (p.1, { p.2 with label := some lab }) else p)

/-- The loop of `Users.label_flashcards`: for each `i` in
`flashcards_to_label`, take `flashcard_id = list(keys())[i]` (a 0-based
list index — `none` models the `IndexError` raised when `i` is out of
range, in which case the trailing `update_item` never runs and nothing
is persisted) and set that card's label. -/
def labelLoop (fset : List (String × CardDict)) (lab : String) :
    List Nat → Option (List (String × CardDict))
  | [] => some fset
  | i :: rest =>
    match (fset.map Prod.fst).get? i with
    | none => none
    | some k => labelLoop (setLabelAt fset k lab) lab rest

/-- Embeds `Users.label_flashcards` end to end: run the labelling loop; on
success the modified set is persisted by the final `update_item`. -/
def label_flashcards (fset : List (String × CardDict)) (lab : String)
    (flashcards_to_label : List Nat) : Option (List (String × CardDict)) :=
  labelLoop fset lab flashcards_to_label

/-! ## Quiz filters and random sampling -/

/-- Modelled from the spec: `FlashcardFilter` is imported by
`class_bot.py` from `class_interaction_objects` but its definition is
missing from the source tree.  Per spec §4.2, a filter compares a
field path (`spacedRepetition.toReview` or `label`) against a target
value with `==` or `!=`, and `filter` "returns the subsequence of
cards satisfying all predicates, preserving original order". -/
inductive FlashcardFilter where
  | toReviewIs (b : Bool)
  | labelIs (s : String)
  | labelIsNot (s : String)
deriving DecidableEq, Repr

/-- Modelled from the spec: `FlashcardFilter.apply` keeps, in order,
the cards whose addressed field compares as required. -/
def FlashcardFilter.apply : FlashcardFilter → List CardDict → List CardDict
  | .toReviewIs b, l => l.filter (fun c => c.sr.to_review = b)
  | .labelIs s, l => l.filter (fun c => c.label = some s)
  | .labelIsNot s, l => l.filter (fun c => c.label ≠ some s)

/-- The filter loop of `Users.get_random_flashcards`:
`for filter_obj in filters: list = filter_obj.apply(list)`. -/
def applyFilters (filters : List FlashcardFilter) (l : List CardDict) :
    List CardDict :=
  filters.foldl (fun acc fl => fl.apply acc) l

/-- Embeds `random.sample(l, k)` for `k ≤ len(l)`: `k` distinct positions
drawn without replacement.  The randomness source is abstracted into
`f`; step `j` removes the element at position `f j mod` (remaining
length) and prepends it. -/
def sampleWith (f : Nat → Nat) : Nat → List CardDict → List CardDict
  | 0, _ => []
  | k + 1, l =>
    if h : l.length = 0 then []
    else
      let i : Fin l.length := ⟨f (k + 1) % l.length, Nat.mod_lt _ (Nat.pos_of_ne_zero h)⟩
      l.get i :: sampleWith f k (l.eraseIdx i.1)

/-- Embeds `Users.get_random_flashcards`: read the stored set's values, apply
the filters in order, cap the request at the filtered length
(`num_flashcards = min(num_flashcards, len(...))`), and sample that
many without replacement.  The method performs no table write, so the
stored set is returned unchanged. -/
def get_random_flashcards (fset : List (String × CardDict)) (n : Nat)
    (filters : List FlashcardFilter) (f : Nat → Nat) :
    List CardDict × List (String × CardDict) :=
  let l := applyFilters filters (fset.map Prod.snd)
  (sampleWith f (min n l.length) l, fset)

/-! ## The review sweep (`class_bot.py`, `check_cards_for_review`) -/

/-- The per-card body of the sweep loop at time `now`:
* `to_review` false: skip if never reviewed, otherwise the card is due
  exactly when `now - last_reviewed >= timedelta(minutes=int(interval))`;
  a due card gets `to_review = True`, `last_reminded = now` and is
  appended to the user's `reminder_packet` (flag `true`);
* `to_review` true: skip if never reminded, otherwise re-remind
  (refresh `last_reminded`, re-enqueue) when a full day has passed. -/
def sweepCard (now : ℚ) (c : CardDict) : CardDict × Bool :=
  if c.sr.to_review = false then
    match c.sr.last_reviewed with
    | none => (c, false)
    | some lr =>
      if now - lr ≥ (pyTrunc c.sr.interval : ℚ) then
        ({ c with sr := { c.sr with to_review := true, last_reminded := some now } }, true)
      else (c, false)
  else
    match c.sr.last_reminded with
    | none => (c, false)
    | some lm =>
      if now - lm ≥ 1440 then
        ({ c with sr := { c.sr with last_reminded := some now } }, true)
      else (c, false)

/-- Outcome of one user's slice of a sweep pass: the persisted card
set afterwards, and the reminder batch of front/back word pairs sent
to the user's DM channel (`none` when no message was sent). -/
structure SweepResult where
  store : List (String × CardDict)
  emitted : Option (List (String × String))
deriving DecidableEq, Repr

/-- The `reminder_packet` one user's slice of the sweep builds at time
`now`: every card of the scanned set is run through `sweepCard`, in
order, and the enqueued results are collected. -/
def sweepPacket (now : ℚ) (fset : List (String × CardDict)) : List CardDict :=
  ((fset.map (fun p => (p.1, sweepCard now p.2))).filter (fun q => q.2.2)).map
    (fun q => q.2.1)

/-- One user's slice of `check_cards_for_review` at time `now`: every
card is run through `sweepCard` on the in-memory scan result and the
enqueued ones form `reminder_packet`; then
`if not user_entry["preferences"]["notifications"]: continue` skips
the rest (neither reminder nor persistence), and otherwise a
non-empty packet is sent as one embed and each packet card is
persisted with `Users.update_flashcard`, in order. -/
def sweepUserPass (now : ℚ) (notifications : Bool)
    (fset : List (String × CardDict)) : SweepResult :=
  let packet := sweepPacket now fset
  if notifications = false then
    { store := fset, emitted := none }
  else if packet = [] then
    { store := fset, emitted := none }
  else
    { store := packet.foldl (fun s c => update_flashcard s c) fset
      emitted := some (packet.map (fun c => (c.front_word, c.back_word))) }

/-! ## Position-list parsing (`class_bot.py`)

`parse_label_input` matches the whole input against
`^([^\d]+)(\d+(-\d+)?(,\s*\d+(-\d+)?)*?)$` and then walks
`group(2).split(',')`; `parse_delete_input` walks
`input_string.split(',')` directly with no regex.  None of the
regex's atoms can match a comma, so the regex holds of the input
exactly when the maximal non-digit prefix (the label) is non-empty
and each comma-separated chunk of the remainder is
(whitespace·)digits(-digits)?, the first chunk without leading
whitespace. -/

/-- The regex class `\d`. -/
def isDigitC (c : Char) : Bool := '0' ≤ c ∧ c ≤ '9'

/-- The regex class `\s` (the whitespace Python's `str.strip` and
`int` also ignore). -/
def isSpaceC (c : Char) : Bool :=
  c = ' ' ∨ c = '\t' ∨ c = '\n' ∨ c = '\r'

/-- Python `str.split(',')`: always at least one (possibly empty)
chunk. -/
def splitOnComma : List Char → List (List Char)
  | [] => [[]]
  | c :: rest =>
    if c = ',' then [] :: splitOnComma rest
    else
      match splitOnComma rest with
      | [] => [[c]]
      | chunk :: chunks => (c :: chunk) :: chunks

/-- Python `str.split('-')`. -/
def splitOnDash : List Char → List (List Char)
  | [] => [[]]
  | c :: rest =>
    if c = '-' then [] :: splitOnDash rest
    else
      match splitOnDash rest with
      | [] => [[c]]
      | chunk :: chunks => (c :: chunk) :: chunks

/-- Numeric value of a digit string. -/
def digitsVal (cs : List Char) : Nat :=
  cs.foldl (fun n c => 10 * n + (c.toNat - '0'.toNat)) 0

/-- Python `int(s)` on a chunk already validated by the regex to be
optional whitespace followed by digits: strip and read. -/
def pyIntValidated (cs : List Char) : Nat :=
  digitsVal (cs.dropWhile (fun c => isSpaceC c))

/-- Python `int(s)` in general (as `parse_delete_input` applies it to
unvalidated chunks): whitespace-stripped optional-sign decimal
literal, `none` modelling the raised `ValueError`. -/
def pyIntOfChars (cs : List Char) : Option ℤ :=
  let cs := (((cs.dropWhile (fun c => isSpaceC c)).reverse.dropWhile
    (fun c => isSpaceC c)).reverse)
  match cs with
  | '-' :: ds => if ds ≠ [] ∧ ds.all isDigitC then some (-(digitsVal ds : ℤ)) else none
  | '+' :: ds => if ds ≠ [] ∧ ds.all isDigitC then some (digitsVal ds : ℤ) else none
  | ds => if ds ≠ [] ∧ ds.all isDigitC then some (digitsVal ds : ℤ) else none

/-- Does a chunk match `\d+(-\d+)?` exactly? -/
def matchesTok (cs : List Char) : Bool :=
  let ds := cs.takeWhile isDigitC
  let rest := cs.dropWhile isDigitC
  ds ≠ [] ∧ (rest = [] ∨
    (rest.head? = some '-' ∧ rest.tail ≠ [] ∧ rest.tail.all isDigitC))

/-- Does a chunk match `\s*\d+(-\d+)?` exactly? -/
def matchesTokWS (cs : List Char) : Bool :=
  matchesTok (cs.dropWhile (fun c => isSpaceC c))

/-- Does `group(2)` of the regex match a character list exactly? -/
def matchesNumberList (cs : List Char) : Bool :=
  match splitOnComma cs with
  | [] => false
  | first :: rest => matchesTok first ∧ rest.all matchesTokWS

/-- Embeds `range(start, end + 1)`: the inclusive integer range, empty when
`e < s`. -/
def rangeIncl (s e : Nat) : List Nat := List.range' s (e + 1 - s)

/-- The shared number-collecting loop of both parsers, on
regex-validated chunks: ranges extend with `range(start, end+1)`,
bare numbers append; any bound outside `[1, maxN]` aborts the whole
parse (`return None, []`). -/
def collectNumbers (maxN : Nat) : List (List Char) → Option (List Nat)
  | [] => some []
  | part :: rest =>
    if part.contains '-' then
      let s := pyIntValidated ((splitOnDash part).headD [])
      let e := pyIntValidated ((splitOnDash part).tail.headD [])
      if 1 ≤ s ∧ s ≤ maxN ∧ 1 ≤ e ∧ e ≤ maxN then
        (collectNumbers maxN rest).map (fun ns => rangeIncl s e ++ ns)
      else none
    else
      let n := pyIntValidated part
      if 1 ≤ n ∧ n ≤ maxN then
        (collectNumbers maxN rest).map (fun ns => n :: ns)
      else none

/-- Python `str.strip()`. -/
def stripChars (cs : List Char) : List Char :=
  ((cs.dropWhile (fun c => isSpaceC c)).reverse.dropWhile
    (fun c => isSpaceC c)).reverse

/-- Embeds `parse_label_input(input_string, max_num_flashcards)`: regex match
(label = maximal non-digit prefix, stripped; remainder = the number
list), then the bounds-checked collection loop.  `none` models the
`(None, [])` rejection return. -/
def parse_label_input (input_string : String) (max_num_flashcards : Nat) :
    Option (String × List Nat) :=
  let cs := input_string.toList
  let labC := cs.takeWhile (fun c => ¬ isDigitC c)
  let rest := cs.dropWhile (fun c => ¬ isDigitC c)
  if labC = [] then none
  else if ¬ matchesNumberList rest then none
  else
    (collectNumbers max_num_flashcards (splitOnComma rest)).map
      (fun ns => (String.mk (stripChars labC), ns))

/-- Possible outcomes of `parse_delete_input`, which (unlike its
docstring's promise of an empty list) returns the two-tuple
`(None, [])` on an out-of-bounds number, and raises `ValueError` on
chunks `int` cannot read or on a chunk with more than one `-`. -/
inductive DeleteParseResult where
  | ok (nums : List Nat)
  | badTuple
  | error
deriving DecidableEq, Repr

/-- The truthiness test `if flashcards_to_delete:` that guards the
call to `delete_flashcards` in the `flashcards` command: an empty
list is falsy, a non-empty list is truthy, and the two-element tuple
`(None, [])` is truthy. -/
def deleteResultTruthy : DeleteParseResult → Bool
  | .ok nums => nums ≠ []
  | .badTuple => true
  | .error => false

/-- The loop of `parse_delete_input` over `input_string.split(',')`:
chunks containing `-` are unpacked as `start, end = map(int, part.split('-'))`
(raising on a chunk count other than two or an unreadable piece),
bare chunks as `int(part)`; an out-of-bounds value returns
`(None, [])`. -/
def deleteLoop (maxN : Nat) : List (List Char) → DeleteParseResult
  | [] => .ok []
  | part :: rest =>
    if part.contains '-' then
      match splitOnDash part with
      | [a, b] =>
        match pyIntOfChars a, pyIntOfChars b with
        | some s, some e =>
          if 1 ≤ s ∧ s ≤ (maxN : ℤ) ∧ 1 ≤ e ∧ e ≤ (maxN : ℤ) then
            match deleteLoop maxN rest with
            | .ok ns => .ok (rangeIncl s.toNat e.toNat ++ ns)
            | r => r
          else .badTuple
        | _, _ => .error
      | _ => .error
    else
      match pyIntOfChars part with
      | some n =>
        if 1 ≤ n ∧ n ≤ (maxN : ℤ) then
          match deleteLoop maxN rest with
          | .ok ns => .ok (n.toNat :: ns)
          | r => r
        else .badTuple
      | none => .error

/-- Embeds `parse_delete_input(input_string, max_num_flashcards)`. -/
def parse_delete_input (input_string : String) (max_num_flashcards : Nat) :
    DeleteParseResult :=
  deleteLoop max_num_flashcards (splitOnComma input_string.toList)

set_option maxRecDepth 8000

/-! ## Concrete fixtures used by counterexamples and witnesses -/

/-- Repeated Good ratings: `rateGoodN n o` is `o` after `n` successive
`process_rating` calls with rating Good at time 0. -/
def rateGoodN : Nat → FlashcardObject → FlashcardObject
  | 0, o => o
  | n + 1, o => (process_rating (rateGoodN n o) .good 0).1

/-- A fresh flashcard object in initial spaced-repetition state. -/
def freshCard : FlashcardObject where
  id := "c1"
  front_word := "나무"
  front_dfn := "kdfn"
  back_word := "tree"
  back_dfn := "tdfn"
  sr := initialSR

/-- Spaced-repetition state after some ratings at time 0: not flagged,
last reviewed at 0, never reminded. -/
def srAt (q : ℚ) (lp : Bool) (ts : Nat) : SRData where
  to_review := false
  last_reviewed := some 0
  last_reminded := none
  interval := q
  learning_phase := lp
  times_studied := ts

/-- The fresh card's object after some ratings at time 0. -/
def objAt (q : ℚ) (lp : Bool) (ts : Nat) : FlashcardObject where
  id := "c1"
  front_word := "나무"
  front_dfn := "kdfn"
  back_word := "tree"
  back_dfn := "tdfn"
  sr := srAt q lp ts

/-- A stored card last reviewed at time 0, interval 10, not flagged:
due in any sweep at time ≥ 10. -/
def cardDueAt0 : CardDict where
  id := "a"
  front_word := "나무"
  front_dfn := "kdfn"
  back_word := "tree"
  back_dfn := "tdfn"
  label := none
  sr := { to_review := false, last_reviewed := some 0, last_reminded := none,
          interval := 10, learning_phase := true, times_studied := 1 }

/-- A second stored card with id `"b"`. -/
def cardB : CardDict := { cardDueAt0 with id := "b" }

/-- A stored card carrying a user-assigned label. -/
def cardLabeled : CardDict := { cardDueAt0 with label := some "animals" }

/-- A stored card whose 30-minute interval elapses at exactly time 130
(`last_reviewed = 100`). -/
def cardEq : CardDict :=
  { cardDueAt0 with
    sr := { cardDueAt0.sr with last_reviewed := some 100, interval := 30 } }

/-- An `n`-entry stored set with distinct numeric-string keys. -/
def demoStore (n : Nat) : List (String × CardDict) :=
  (List.range n).map (fun i => (Nat.repr i, { cardDueAt0 with id := Nat.repr i }))

/-- Unfolding of the card component of `process_rating` (definitional). -/
theorem process_rating_fst (o : FlashcardObject) (r : Rating) (now : ℚ) :
    (process_rating o r now).1 =
      { o with sr :=
        { update_learning_phase (update_interval o.sr (FACTORS r o.sr.learning_phase)) with
          to_review := false
          last_reviewed := some now
          times_studied :=
            (update_learning_phase (update_interval o.sr (FACTORS r o.sr.learning_phase))).times_studied + 1 } } :=
  rfl

/-- One Good rating at time 0 on the running example, assembled from
the interval update and the phase recompute. -/
theorem goodStep (q q2 : ℚ) (lp lp2 : Bool) (ts : Nat)
    (hu : update_interval (srAt q lp ts) (FACTORS .good lp) = srAt q2 lp ts)
    (hl : update_learning_phase (srAt q2 lp ts) = srAt q2 lp2 ts) :
    (process_rating (objAt q lp ts) .good 0).1 = objAt q2 lp2 (ts + 1) := by
  have hs : (objAt q lp ts).sr = srAt q lp ts := rfl
  have hp : (objAt q lp ts).sr.learning_phase = lp := rfl
  rw [process_rating_fst, hp, hs, hu, hl]
  rfl

/-- Unfolding of `update_interval` (definitional): because the second
assignment recomputes from `new_interval`, the min-clamped value `sr1`
is dead and the final interval is just `max new_interval MIN`. -/
theorem update_interval_eq (sr : SRData) (factor : ℚ) :
    update_interval sr factor =
      { sr with
        interval := max ((pyTrunc sr.interval : ℚ) * factor) (MIN_INTERVAL_minutes : ℚ) } :=
  rfl

/-! ## Claim C1 — interval bounds -/

/-- C1: "after each rate()/process_rating call the card's interval
satisfies MIN_INTERVAL (10 minutes) <= interval <= MAX_INTERVAL
(30 days = 43200 minutes)".  The claim fails on the code: the second
clamping assignment of `update_interval` recomputes from
`new_interval`, so the `min` with `MAX_INTERVAL` is discarded.
Starting from a fresh card, seven consecutive Good ratings drive the
interval to 47246.5 minutes (10 → 30 → 90 → 315 → 1102.5 → 3857 →
13499.5 → 47246.5), strictly above the 43200-minute maximum the claim
asserts after every rating. -/
theorem c1_interval_exceeds_max_after_seven_goods :
    (rateGoodN 7 freshCard).sr.interval = 47246.5 ∧
    ¬ ((rateGoodN 7 freshCard).sr.interval ≤ (MAX_INTERVAL_minutes : ℚ)) := by
  have u1 : update_interval initialSR (FACTORS .good true) =
      { initialSR with interval := 30 } := by
    rw [update_interval_eq]
    simp only [initialSR, INITIAL_INTERVAL_minutes, FACTORS, pyTrunc,
      MIN_INTERVAL_minutes]
    rw [if_neg (by norm_num), show ⌊(10 : ℚ)⌋ = 10 from by
      rw [Int.floor_eq_iff]; norm_num]
    norm_num [max_def]
  have l1 : update_learning_phase { initialSR with interval := 30 } =
      { initialSR with interval := 30 } := by
    simp only [update_learning_phase, initialSR, LEARNING_THRESHOLD_minutes]
    norm_num
  have t1 : rateGoodN 1 freshCard = objAt 30 true 1 := by
    show (process_rating freshCard .good 0).1 = _
    rw [process_rating_fst, show freshCard.sr = initialSR from rfl,
      show initialSR.learning_phase = true from rfl, u1, l1]
    rfl
  have t2 : rateGoodN 2 freshCard = objAt 90 false 2 := by
    show (process_rating (rateGoodN 1 freshCard) .good 0).1 = _
    rw [t1]
    refine goodStep 30 90 true false 1 ?_ ?_
    · rw [update_interval_eq]
      simp only [srAt, FACTORS, pyTrunc, MIN_INTERVAL_minutes]
      rw [if_neg (by norm_num), show ⌊(30 : ℚ)⌋ = 30 from by
        rw [Int.floor_eq_iff]; norm_num]
      norm_num [max_def]
    · simp only [update_learning_phase, srAt, LEARNING_THRESHOLD_minutes]
      norm_num
  have t3 : rateGoodN 3 freshCard = objAt 315 false 3 := by
    show (process_rating (rateGoodN 2 freshCard) .good 0).1 = _
    rw [t2]
    refine goodStep 90 315 false false 2 ?_ ?_
    · rw [update_interval_eq]
      simp only [srAt, FACTORS, pyTrunc, MIN_INTERVAL_minutes]
      rw [if_neg (by norm_num), show ⌊(90 : ℚ)⌋ = 90 from by
        rw [Int.floor_eq_iff]; norm_num]
      norm_num [max_def]
    · simp only [update_learning_phase, srAt, LEARNING_THRESHOLD_minutes]
      norm_num
  have t4 : rateGoodN 4 freshCard = objAt 1102.5 false 4 := by
    show (process_rating (rateGoodN 3 freshCard) .good 0).1 = _
    rw [t3]
    refine goodStep 315 1102.5 false false 3 ?_ ?_
    · rw [update_interval_eq]
      simp only [srAt, FACTORS, pyTrunc, MIN_INTERVAL_minutes]
      rw [if_neg (by norm_num), show ⌊(315 : ℚ)⌋ = 315 from by
        rw [Int.floor_eq_iff]; norm_num]
      norm_num [max_def]
    · simp only [update_learning_phase, srAt, LEARNING_THRESHOLD_minutes]
      norm_num
  have t5 : rateGoodN 5 freshCard = objAt 3857 false 5 := by
    show (process_rating (rateGoodN 4 freshCard) .good 0).1 = _
    rw [t4]
    refine goodStep 1102.5 3857 false false 4 ?_ ?_
    · rw [update_interval_eq]
      simp only [srAt, FACTORS, pyTrunc, MIN_INTERVAL_minutes]
      rw [if_neg (by norm_num), show ⌊(1102.5 : ℚ)⌋ = 1102 from by
        rw [Int.floor_eq_iff]; norm_num]
      norm_num [max_def]
    · simp only [update_learning_phase, srAt, LEARNING_THRESHOLD_minutes]
      norm_num
  have t6 : rateGoodN 6 freshCard = objAt 13499.5 false 6 := by
    show (process_rating (rateGoodN 5 freshCard) .good 0).1 = _
    rw [t5]
    refine goodStep 3857 13499.5 false false 5 ?_ ?_
    · rw [update_interval_eq]
      simp only [srAt, FACTORS, pyTrunc, MIN_INTERVAL_minutes]
      rw [if_neg (by norm_num), show ⌊(3857 : ℚ)⌋ = 3857 from by
        rw [Int.floor_eq_iff]; norm_num]
      norm_num [max_def]
    · simp only [update_learning_phase, srAt, LEARNING_THRESHOLD_minutes]
      norm_num
  have t7 : rateGoodN 7 freshCard = objAt 47246.5 false 7 := by
    show (process_rating (rateGoodN 6 freshCard) .good 0).1 = _
    rw [t6]
    refine goodStep 13499.5 47246.5 false false 6 ?_ ?_
    · rw [update_interval_eq]
      simp only [srAt, FACTORS, pyTrunc, MIN_INTERVAL_minutes]
      rw [if_neg (by norm_num), show ⌊(13499.5 : ℚ)⌋ = 13499 from by
        rw [Int.floor_eq_iff]; norm_num]
      norm_num [max_def]
    · simp only [update_learning_phase, srAt, LEARNING_THRESHOLD_minutes]
      norm_num
  rw [t7]
  constructor
  · rfl
  · simp only [objAt, srAt, MAX_INTERVAL_minutes]
    norm_num

/-- Evaluation rule for `pyTrunc` on non-negative arguments. -/
theorem pyTrunc_eval (q : ℚ) (z : ℤ) (h0 : 0 ≤ q) (hz : ⌊q⌋ = z) :
    pyTrunc q = z := by
  rw [pyTrunc, if_neg (not_lt.mpr h0), hz]

/-! ## Claim C2 — disabled notifications and persistence -/

/-- C2 counterexample: at sweep time 100, the user's single card is
mutated by due-detection (`sweepCard` flags and enqueues it, changing
the card), yet with notifications disabled the pass leaves the stored
set exactly as it was and emits nothing — so it is false that "every
mutated card is persisted to the store". -/
theorem c2_mutated_card_not_persisted_when_disabled :
    (sweepCard 100 cardDueAt0).2 = true ∧
    (sweepCard 100 cardDueAt0).1 ≠ cardDueAt0 ∧
    sweepUserPass 100 false [("a", cardDueAt0)] =
      { store := [("a", cardDueAt0)], emitted := none } := by
  have hsc : sweepCard 100 cardDueAt0 =
      ({ cardDueAt0 with sr := { cardDueAt0.sr with
          to_review := true, last_reminded := some 100 } }, true) := by
    have hp : pyTrunc 10 = 10 :=
      pyTrunc_eval _ _ (by norm_num) (by rw [Int.floor_eq_iff]; norm_num)
    simp only [sweepCard, cardDueAt0, hp, if_true]
    rw [if_pos (show (100 : ℚ) - 0 ≥ ((10 : ℤ) : ℚ) by push_cast; norm_num)]
  refine ⟨by rw [hsc], by rw [hsc]; simp [cardDueAt0], rfl⟩

/-- C2 amended: during a sweep pass over a user whose notification
preference is disabled, the due-detection mutations happen only on the
in-memory scan results; the `continue` for disabled notifications is
reached before both the reminder send and the persistence loop, so no
reminder is emitted and the stored set is unchanged. -/
theorem c2_sweep_disabled_no_persist_no_emit (now : ℚ)
    (fset : List (String × CardDict)) :
    (sweepUserPass now false fset).store = fset ∧
    (sweepUserPass now false fset).emitted = none :=
  ⟨rfl, rfl⟩

/-! ## Claim C3 — labelling by position -/

/-- C3: the claim says `label` sets the label on exactly the cards at
the given 1-based display positions, position `n` on an `n`-card set
labelling the last card.  The code instead feeds the 1-based positions
straight into a 0-based list index: on the two-card set, position 2
raises `IndexError` (nothing is persisted), and position 1 labels the
second card while leaving the first untouched. -/
theorem c3_label_positions_off_by_one :
    label_flashcards [("a", cardDueAt0), ("b", cardB)] "x" [2] = none ∧
    label_flashcards [("a", cardDueAt0), ("b", cardB)] "x" [1] =
      some [("a", cardDueAt0), ("b", { cardB with label := some "x" })] :=
  ⟨rfl, rfl⟩

/-! ## Claim C4 — rate-and-persist frame effect -/

/-- C4: the claim says the rate-and-persist flow changes only the
spaced-repetition fields and leaves an existing label unchanged.  The
code routes the stored dict through `FlashcardObject.from_dict`, which
has no `label` attribute, and `to_dict`, which emits no `label` key;
`update_flashcard` then replaces the stored dict wholesale.  On a card
labelled "animals" rated Good at time 500, identity and content fields
and the claimed spaced-repetition updates all hold, but the label is
gone from the persisted card. -/
theorem c4_quiz_rate_persist_drops_label :
    (to_dict (process_rating (from_dict cardLabeled) .good 500).1).id = cardLabeled.id ∧
    (to_dict (process_rating (from_dict cardLabeled) .good 500).1).front_word = cardLabeled.front_word ∧
    (to_dict (process_rating (from_dict cardLabeled) .good 500).1).front_dfn = cardLabeled.front_dfn ∧
    (to_dict (process_rating (from_dict cardLabeled) .good 500).1).back_word = cardLabeled.back_word ∧
    (to_dict (process_rating (from_dict cardLabeled) .good 500).1).back_dfn = cardLabeled.back_dfn ∧
    (to_dict (process_rating (from_dict cardLabeled) .good 500).1).sr.to_review = false ∧
    (to_dict (process_rating (from_dict cardLabeled) .good 500).1).sr.last_reviewed = some 500 ∧
    (to_dict (process_rating (from_dict cardLabeled) .good 500).1).sr.times_studied =
      cardLabeled.sr.times_studied + 1 ∧
    cardLabeled.label = some "animals" ∧
    (to_dict (process_rating (from_dict cardLabeled) .good 500).1).label = none ∧
    update_flashcard [("a", cardLabeled)]
        (to_dict (process_rating (from_dict cardLabeled) .good 500).1) =
      [("a", to_dict (process_rating (from_dict cardLabeled) .good 500).1)] := by
  refine ⟨rfl, rfl, rfl, rfl, rfl, rfl, rfl, rfl, rfl, rfl, rfl⟩

/-! ## Claim C5 — position-list parsing fails closed -/

/-- C5: Scenario E holds for the label parser ("animals 4, 15, 20,
6-13" on a 20-card set yields label "animals" and exactly the
positions {4,6,...,13,15,20}; "animals 25" is rejected), but the
fail-closed property is violated by the delete command: on the
out-of-bounds input "25", `parse_delete_input` returns the tuple
`(None, [])` instead of the empty list its docstring promises, the
caller's truthiness guard accepts that tuple, and the command
proceeds into its delete-and-report-success branch instead of
rejecting the input. -/
theorem c5_delete_out_of_bounds_not_fail_closed :
    parse_label_input "animals 4, 15, 20, 6-13" 20 =
      some ("animals", [4, 15, 20, 6, 7, 8, 9, 10, 11, 12, 13]) ∧
    (∀ n : Nat, n ∈ [4, 15, 20, 6, 7, 8, 9, 10, 11, 12, 13] ↔
      n ∈ [4, 6, 7, 8, 9, 10, 11, 12, 13, 15, 20]) ∧
    parse_label_input "animals 25" 20 = none ∧
    parse_delete_input "25" 20 = .badTuple ∧
    deleteResultTruthy (parse_delete_input "25" 20) = true := by
  refine ⟨by decide, fun n => ?_, by decide, by decide, by decide⟩
  constructor <;> (intro h; simp only [List.mem_cons, List.not_mem_nil] at h ⊢; tauto)

/-! ## Claim C6 — scenario A/B and the factor table -/

/-- C6: a card with interval 10 in the learning phase rated Good gets
factor 3.0 and interval 30, still learning (30 < 60); rated Good again
it gets factor 3.0 (the lookup still sees the learning phase) and
interval 90, now in the review phase; and the factor table is exactly
Good: 3.0/3.5, Okay: 1.0/1.0, Poor: 0.5/0.75. -/
theorem c6_scenario_learning_to_review :
    (rateGoodN 1 freshCard).sr.interval = 30 ∧
    (rateGoodN 1 freshCard).sr.learning_phase = true ∧
    calculate_factor (rateGoodN 1 freshCard) .good = 3 ∧
    (rateGoodN 2 freshCard).sr.interval = 90 ∧
    (rateGoodN 2 freshCard).sr.learning_phase = false ∧
    calculate_factor freshCard .good = 3 ∧
    FACTORS .good true = 3 ∧ FACTORS .good false = 3.5 ∧
    FACTORS .okay true = 1 ∧ FACTORS .okay false = 1 ∧
    FACTORS .poor true = 0.5 ∧ FACTORS .poor false = 0.75 := by
  have u1 : update_interval initialSR (FACTORS .good true) =
      { initialSR with interval := 30 } := by
    rw [update_interval_eq]
    simp only [initialSR, INITIAL_INTERVAL_minutes, FACTORS, pyTrunc,
      MIN_INTERVAL_minutes]
    rw [if_neg (by norm_num), show ⌊(10 : ℚ)⌋ = 10 from by
      rw [Int.floor_eq_iff]; norm_num]
    norm_num [max_def]
  have l1 : update_learning_phase { initialSR with interval := 30 } =
      { initialSR with interval := 30 } := by
    simp only [update_learning_phase, initialSR, LEARNING_THRESHOLD_minutes]
    norm_num
  have t1 : rateGoodN 1 freshCard = objAt 30 true 1 := by
    show (process_rating freshCard .good 0).1 = _
    rw [process_rating_fst, show freshCard.sr = initialSR from rfl,
      show initialSR.learning_phase = true from rfl, u1, l1]
    rfl
  have t2 : rateGoodN 2 freshCard = objAt 90 false 2 := by
    show (process_rating (rateGoodN 1 freshCard) .good 0).1 = _
    rw [t1]
    refine goodStep 30 90 true false 1 ?_ ?_
    · rw [update_interval_eq]
      simp only [srAt, FACTORS, pyTrunc, MIN_INTERVAL_minutes]
      rw [if_neg (by norm_num), show ⌊(30 : ℚ)⌋ = 30 from by
        rw [Int.floor_eq_iff]; norm_num]
      norm_num [max_def]
    · simp only [update_learning_phase, srAt, LEARNING_THRESHOLD_minutes]
      norm_num
  rw [t1, t2]
  exact ⟨rfl, rfl, rfl, rfl, rfl, rfl, rfl, rfl, rfl, rfl, rfl, rfl⟩

/-! ## Claim C7 — due detection at sweep time -/

/-- C7: at sweep time `now`, a card with `to_review = false` is
skipped when it was never reviewed; otherwise it becomes due exactly
when `now - last_reviewed ≥ int(interval)` minutes (equality
included), in which case `to_review` is set, `last_reminded := now`,
and the card is enqueued into the user's reminder batch. -/
theorem c7_due_detection_threshold (now : ℚ) (c : CardDict)
    (h : c.sr.to_review = false) :
    (c.sr.last_reviewed = none → sweepCard now c = (c, false)) ∧
    (∀ lr, c.sr.last_reviewed = some lr →
      (now - lr ≥ (pyTrunc c.sr.interval : ℚ) →
        sweepCard now c =
          ({ c with sr := { c.sr with to_review := true, last_reminded := some now } },
            true)) ∧
      (now - lr < (pyTrunc c.sr.interval : ℚ) → sweepCard now c = (c, false))) := by
  refine ⟨fun hnone => ?_, fun lr hlr => ⟨fun hge => ?_, fun hlt => ?_⟩⟩
  · rw [sweepCard, if_pos h, hnone]
  · rw [sweepCard, if_pos h, hlr]
    simp only [if_pos hge]
  · rw [sweepCard, if_pos h, hlr]
    simp only [if_neg (not_le.mpr hlt)]

/-- C7 witness (Scenario D): `cardEq` has interval 30, last reviewed
at 100, and the sweep at exactly time 130 flags and enqueues it. -/
theorem c7_due_detection_threshold_witness :
    cardEq.sr.to_review = false ∧
    cardEq.sr.last_reviewed = some 100 ∧
    (130 : ℚ) - 100 ≥ (pyTrunc cardEq.sr.interval : ℚ) ∧
    sweepCard 130 cardEq =
      ({ cardEq with sr := { cardEq.sr with to_review := true, last_reminded := some 130 } },
        true) := by
  have hge : (130 : ℚ) - 100 ≥ (pyTrunc cardEq.sr.interval : ℚ) := by
    rw [show cardEq.sr.interval = 30 from rfl,
      pyTrunc_eval 30 30 (by norm_num) (by rw [Int.floor_eq_iff]; norm_num)]
    push_cast
    norm_num
  exact ⟨rfl, rfl, hge,
    ((c7_due_detection_threshold 130 cardEq rfl).2 100 rfl).1 hge⟩

/-! ## Claim C8 — capacity enforcement -/

/-- Lookup after a Python dict assignment finds the assigned value. -/
theorem assocGet_assocSet_self (l : List (String × CardDict)) (k : String)
    (v : CardDict) : assocGet (assocSet l k v) k = some v := by
  induction l with
  | nil => simp [assocSet, assocGet]
  | cons p t ih =>
    by_cases hk : p.1 = k
    · simp [assocSet, assocGet, hk]
    · simp only [assocSet, assocGet, if_neg hk]
      exact ih

/-- C8: adding to a stored set already holding `MAX_CAPACITY` (100)
cards returns `False` and leaves the set untouched; adding below
capacity returns `True` and the card is found under its id
afterwards. -/
theorem c8_capacity_enforced (fset : List (String × CardDict)) (d : CardDict) :
    (fset.length = 100 → add_flashcard_to_set fset d = (false, fset)) ∧
    (fset.length < 100 →
      (add_flashcard_to_set fset d).1 = true ∧
      assocGet (add_flashcard_to_set fset d).2 d.id = some d) := by
  constructor
  · intro h
    rw [add_flashcard_to_set, if_pos (by omega)]
  · intro h
    rw [add_flashcard_to_set, if_neg (by omega)]
    exact ⟨rfl, assocGet_assocSet_self fset d.id d⟩

/-- C8 witness: a concrete 100-entry set rejects `cardB` unchanged,
and the empty set accepts it and stores it under its id. -/
theorem c8_capacity_enforced_witness :
    (demoStore 100).length = 100 ∧
    add_flashcard_to_set (demoStore 100) cardB = (false, demoStore 100) ∧
    (add_flashcard_to_set [] cardB).1 = true ∧
    assocGet (add_flashcard_to_set [] cardB).2 cardB.id = some cardB := by
  have hlen : (demoStore 100).length = 100 := by
    simp [demoStore]
  exact ⟨hlen, (c8_capacity_enforced (demoStore 100) cardB).1 hlen,
    ((c8_capacity_enforced [] cardB).2 (by simp)).1,
    ((c8_capacity_enforced [] cardB).2 (by simp)).2⟩

/-! ## Claim C9 — random sampling -/

/-- Removing position `i` and re-prepending the removed element is a
permutation of the original list. -/
theorem perm_get_cons_eraseIdx (l : List CardDict) (i : Nat) (h : i < l.length) :
    l.Perm (l.get ⟨i, h⟩ :: l.eraseIdx i) := by
  induction l generalizing i with
  | nil => simp at h
  | cons a t ih =>
    cases i with
    | zero => exact List.Perm.refl _
    | succ j =>
      have hj : j < t.length := by simpa using h
      show List.Perm (a :: t) (t.get ⟨j, hj⟩ :: a :: t.eraseIdx j)
      exact (List.Perm.cons a (ih j hj)).trans (List.Perm.swap _ _ _)

/-- Sampling `k ≤ len` elements yields exactly `k` elements. -/
theorem sampleWith_length (f : Nat → Nat) :
    ∀ (k : Nat) (l : List CardDict), k ≤ l.length →
      (sampleWith f k l).length = k := by
  intro k
  induction k with
  | zero => intro l _; rfl
  | succ n ih =>
    intro l h
    have hne : l.length ≠ 0 := by omega
    have hlt : f (n + 1) % l.length < l.length :=
      Nat.mod_lt _ (Nat.pos_of_ne_zero hne)
    have herase := List.length_eraseIdx_add_one hlt
    rw [sampleWith, dif_neg hne]
    simp only [List.length_cons]
    rw [ih (l.eraseIdx (f (n + 1) % l.length)) (by omega)]

/-- Whatever the randomness source, the sample is drawn without
replacement: it is a sub-permutation of the list sampled from. -/
theorem sampleWith_subperm (f : Nat → Nat) :
    ∀ (k : Nat) (l : List CardDict), List.Subperm (sampleWith f k l) l := by
  intro k
  induction k with
  | zero => intro l; exact List.nil_subperm
  | succ n ih =>
    intro l
    by_cases hne : l.length = 0
    · rw [sampleWith, dif_pos hne]
      exact List.nil_subperm
    · have hlt : f (n + 1) % l.length < l.length :=
        Nat.mod_lt _ (Nat.pos_of_ne_zero hne)
      rw [sampleWith, dif_neg hne]
      exact ((List.subperm_cons _).mpr (ih _)).trans
        (perm_get_cons_eraseIdx l _ hlt).symm.subperm

/-- C9: whatever filters are applied and however the randomness turns
out, `get_random_flashcards` leaves the stored set untouched, returns
exactly `min n filteredSize` cards (hence the empty list when the
filtered list is empty), and the returned cards form a
sub-permutation of the filtered list — distinct positions, drawn
without replacement. -/
theorem c9_sample_min_distinct_no_mutation (fset : List (String × CardDict))
    (n : Nat) (filters : List FlashcardFilter) (f : Nat → Nat) :
    (get_random_flashcards fset n filters f).2 = fset ∧
    (get_random_flashcards fset n filters f).1.length =
      min n (applyFilters filters (fset.map Prod.snd)).length ∧
    List.Subperm (get_random_flashcards fset n filters f).1
      (applyFilters filters (fset.map Prod.snd)) := by
  refine ⟨rfl, ?_, ?_⟩
  · exact sampleWith_length f _ _ (Nat.min_le_right _ _)
  · exact sampleWith_subperm f _ _

/-! ## Claim C10 — sweep idempotence at a fixed instant -/

/-- Well-formedness of a stored set as DynamoDB maintains it: keys are
distinct and every stored card sits under its own id. -/
def WFStore (fset : List (String × CardDict)) : Prop :=
  (fset.map Prod.fst).Nodup ∧ ∀ p ∈ fset, p.2.id = p.1

/-- The sweep body never changes a card's id. -/
theorem sweepCard_fst_id (now : ℚ) (c : CardDict) :
    ((sweepCard now c).1).id = c.id := by
  rw [sweepCard]
  split
  · split
    · rfl
    · split <;> rfl
  · split
    · rfl
    · split <;> rfl

/-- Exhaustive description of the sweep body's outcomes: unchanged and
not enqueued, freshly flagged, or re-reminded. -/
theorem sweepCard_cases (now : ℚ) (c : CardDict) :
    sweepCard now c = (c, false) ∨
    sweepCard now c =
      ({ c with sr := { c.sr with to_review := true, last_reminded := some now } },
        true) ∨
    (sweepCard now c =
      ({ c with sr := { c.sr with last_reminded := some now } }, true) ∧
      c.sr.to_review = true) := by
  by_cases h : c.sr.to_review = false
  · cases hlr : c.sr.last_reviewed with
    | none => left; rw [sweepCard, if_pos h, hlr]
    | some lr =>
      by_cases hge : now - lr ≥ (pyTrunc c.sr.interval : ℚ)
      · right; left
        rw [sweepCard, if_pos h, hlr]
        simp only [hge, if_true]
      · left
        rw [sweepCard, if_pos h, hlr]
        simp only [hge, if_false]
  · have h' : c.sr.to_review = true := by
      revert h; cases c.sr.to_review <;> simp
    cases hlm : c.sr.last_reminded with
    | none => left; rw [sweepCard, if_neg h, hlm]
    | some lm =>
      by_cases hge : now - lm ≥ 1440
      · right; right
        refine ⟨?_, h'⟩
        rw [sweepCard, if_neg h, hlm]
        simp only [hge, if_true]
      · left
        rw [sweepCard, if_neg h, hlm]
        simp only [hge, if_false]

/-- Sweeping a card the sweep just produced changes nothing and
enqueues nothing: a freshly flagged or re-reminded card has
`last_reminded = now`, and `now - now ≥ 1 day` fails. -/
theorem sweepCard_idem (now : ℚ) (c : CardDict) :
    sweepCard now (sweepCard now c).1 = ((sweepCard now c).1, false) := by
  rcases sweepCard_cases now c with h | h | ⟨h, htr⟩
  · rw [h]
    exact h
  · rw [h]
    show sweepCard now _ = _
    rw [sweepCard, if_neg (by simp)]
    show (if now - now ≥ 1440 then _ else _) = _
    rw [if_neg (by rw [sub_self]; norm_num)]
  · rw [h]
    show sweepCard now _ = _
    rw [sweepCard, if_neg (by simp [htr])]
    show (if now - now ≥ 1440 then _ else _) = _
    rw [if_neg (by rw [sub_self]; norm_num)]

/-- Writing to an existing key leaves the key list unchanged. -/
theorem assocSet_map_fst (l : List (String × CardDict)) (k : String) (v : CardDict)
    (hk : k ∈ l.map Prod.fst) :
    (assocSet l k v).map Prod.fst = l.map Prod.fst := by
  induction l with
  | nil => simp at hk
  | cons p t ih =>
    by_cases hp : p.1 = k
    · rw [assocSet, if_pos hp, List.map_cons, List.map_cons]
    · have hk' : k ∈ t.map Prod.fst := by
        rw [List.map_cons, List.mem_cons] at hk
        rcases hk with hk | hk
        · exact absurd hk.symm hp
        · exact hk
      rw [assocSet, if_neg hp, List.map_cons, List.map_cons, ih hk']

/-- Writing to an existing key preserves the id-under-own-key
invariant whenever the written card carries that key as its id. -/
theorem assocSet_ids (l : List (String × CardDict)) (k : String) (v : CardDict)
    (hv : v.id = k) (hids : ∀ p ∈ l, p.2.id = p.1) :
    ∀ p ∈ assocSet l k v, p.2.id = p.1 := by
  induction l with
  | nil =>
    intro p hp
    rw [show assocSet [] k v = [(k, v)] from rfl, List.mem_singleton] at hp
    rw [hp]
    exact hv
  | cons q t ih =>
    intro p hp
    by_cases hq : q.1 = k
    · rw [assocSet, if_pos hq, List.mem_cons] at hp
      rcases hp with hp | hp
      · rw [hp]
        show v.id = q.1
        rw [hv, hq]
      · exact hids p (List.mem_cons_of_mem q hp)
    · rw [assocSet, if_neg hq, List.mem_cons] at hp
      rcases hp with hp | hp
      · rw [hp]
        exact hids q (List.mem_cons_self q t)
      · exact ih (fun r hr => hids r (List.mem_cons_of_mem q hr)) p hp

/-- A value visible after a keyed write is either the written card or
an untouched original value whose id differs from the written key. -/
theorem mem_values_assocSet {l : List (String × CardDict)} {k : String}
    {v x : CardDict} (hnd : (l.map Prod.fst).Nodup)
    (hids : ∀ p ∈ l, p.2.id = p.1)
    (hx : x ∈ (assocSet l k v).map Prod.snd) :
    x = v ∨ (x ∈ l.map Prod.snd ∧ x.id ≠ k) := by
  induction l with
  | nil =>
    left
    rw [show assocSet [] k v = [(k, v)] from rfl] at hx
    simpa using hx
  | cons p t ih =>
    rw [List.map_cons, List.nodup_cons] at hnd
    by_cases hp : p.1 = k
    · rw [assocSet, if_pos hp, List.map_cons, List.mem_cons] at hx
      rcases hx with hx | hx
      · left
        exact hx
      · rcases List.mem_map.mp hx with ⟨q, hq, hqx⟩
        right
        refine ⟨List.mem_map.mpr ⟨q, List.mem_cons_of_mem p hq, hqx⟩, ?_⟩
        have hqid : q.2.id = q.1 := hids q (List.mem_cons_of_mem p hq)
        have hq1 : q.1 ∈ t.map Prod.fst := List.mem_map.mpr ⟨q, hq, rfl⟩
        rw [← hqx, hqid]
        intro hcon
        rw [hcon, ← hp] at hq1
        exact hnd.1 hq1
    · rw [assocSet, if_neg hp, List.map_cons, List.mem_cons] at hx
      rcases hx with hx | hx
      · right
        constructor
        · rw [List.map_cons, hx]
          exact List.mem_cons_self _ _
        · rw [hx]
          show p.2.id ≠ k
          rw [hids p (List.mem_cons_self p t)]
          exact hp
      · rcases ih hnd.2 (fun r hr => hids r (List.mem_cons_of_mem p hr)) hx with
          h | ⟨h1, h2⟩
        · left; exact h
        · right
          refine ⟨?_, h2⟩
          rw [List.map_cons]
          exact List.mem_cons_of_mem _ h1

/-- A value stored after the persistence loop (`update_flashcard` for
each packet card, in order) is either one of the persisted cards or an
original value whose id none of the persisted cards carries. -/
theorem mem_values_foldl_update (ps : List CardDict) :
    ∀ (l : List (String × CardDict)),
      (l.map Prod.fst).Nodup → (∀ p ∈ l, p.2.id = p.1) →
      (∀ c ∈ ps, c.id ∈ l.map Prod.fst) →
      ∀ x ∈ (ps.foldl (fun s c => update_flashcard s c) l).map Prod.snd,
        x ∈ ps ∨ (x ∈ l.map Prod.snd ∧ ∀ c ∈ ps, c.id ≠ x.id) := by
  induction ps with
  | nil =>
    intro l _ _ _ x hx
    right
    exact ⟨hx, fun c hc => absurd hc (List.not_mem_nil c)⟩
  | cons c cs ih =>
    intro l hnd hids hin x hx
    rw [List.foldl_cons] at hx
    have hcid : c.id ∈ l.map Prod.fst := hin c (List.mem_cons_self c cs)
    have hnd' : ((update_flashcard l c).map Prod.fst).Nodup := by
      rw [update_flashcard, assocSet_map_fst l c.id c hcid]
      exact hnd
    have hids' : ∀ p ∈ update_flashcard l c, p.2.id = p.1 := by
      rw [update_flashcard]
      exact assocSet_ids l c.id c rfl hids
    have hin' : ∀ d ∈ cs, d.id ∈ (update_flashcard l c).map Prod.fst := by
      intro d hd
      rw [update_flashcard, assocSet_map_fst l c.id c hcid]
      exact hin d (List.mem_cons_of_mem c hd)
    rcases ih (update_flashcard l c) hnd' hids' hin' x hx with h | ⟨h1, h2⟩
    · left
      exact List.mem_cons_of_mem c h
    · rw [update_flashcard] at h1
      rcases mem_values_assocSet hnd hids h1 with h | ⟨h3, h4⟩
      · left
        rw [h]
        exact List.mem_cons_self c cs
      · right
        refine ⟨h3, fun d hd => ?_⟩
        rcases List.mem_cons.mp hd with hd | hd
        · rw [hd]
          exact fun hcon => h4 hcon.symm
        · exact h2 d hd

/-- Membership in a user's reminder packet. -/
theorem mem_sweepPacket_iff (now : ℚ) (fset : List (String × CardDict))
    (c : CardDict) :
    c ∈ sweepPacket now fset ↔
      ∃ p, p ∈ fset ∧ (sweepCard now p.2).2 = true ∧ (sweepCard now p.2).1 = c := by
  constructor
  · intro h
    rcases List.mem_map.mp h with ⟨q, hq, hqc⟩
    rcases List.mem_filter.mp hq with ⟨hq1, hq2⟩
    rcases List.mem_map.mp hq1 with ⟨p, hp, hpq⟩
    refine ⟨p, hp, ?_, ?_⟩
    · rw [← hpq] at hq2
      exact hq2
    · rw [← hpq] at hqc
      exact hqc
  · rintro ⟨p, hp, hflag, hc⟩
    refine List.mem_map.mpr ⟨(p.1, sweepCard now p.2), List.mem_filter.mpr ⟨?_, hflag⟩, hc⟩
    exact List.mem_map.mpr ⟨p, hp, rfl⟩

/-- When a user's packet is empty the pass leaves everything alone. -/
theorem sweepUserPass_true_of_packet_nil (now : ℚ)
    (fset : List (String × CardDict)) (h : sweepPacket now fset = []) :
    sweepUserPass now true fset = { store := fset, emitted := none } := by
  rw [sweepUserPass]
  simp only [h]
  rfl

/-- After an enabled sweep pass over a well-formed store, no stored
card would be enqueued again at the same instant: the sweep flag is
false for every stored value. -/
theorem store_flags_false_after_pass (now : ℚ)
    (fset : List (String × CardDict)) (hWF : WFStore fset) :
    ∀ x ∈ (sweepUserPass now true fset).store.map Prod.snd,
      (sweepCard now x).2 = false := by
  intro x hx
  by_cases hpkt : sweepPacket now fset = []
  · rw [sweepUserPass_true_of_packet_nil now fset hpkt] at hx
    rcases List.mem_map.mp hx with ⟨p, hp, hpx⟩
    by_contra hflag
    have hflag' : (sweepCard now x).2 = true := by
      revert hflag
      cases (sweepCard now x).2 <;> simp
    have hmem : (sweepCard now x).1 ∈ sweepPacket now fset :=
      (mem_sweepPacket_iff now fset _).mpr ⟨p, hp, by rw [hpx]; exact hflag', by rw [hpx]⟩
    rw [hpkt] at hmem
    exact absurd hmem (List.not_mem_nil _)
  · have hstore : (sweepUserPass now true fset).store =
        (sweepPacket now fset).foldl (fun s c => update_flashcard s c) fset := by
      rw [sweepUserPass]
      simp only [if_neg hpkt]
      rfl
    rw [hstore] at hx
    have hin : ∀ c ∈ sweepPacket now fset, c.id ∈ fset.map Prod.fst := by
      intro c hc
      rcases (mem_sweepPacket_iff now fset c).mp hc with ⟨p, hp, _, hc'⟩
      rw [← hc', sweepCard_fst_id, hWF.2 p hp]
      exact List.mem_map.mpr ⟨p, hp, rfl⟩
    rcases mem_values_foldl_update (sweepPacket now fset) fset hWF.1 hWF.2 hin x hx with
      h | ⟨h1, h2⟩
    · rcases (mem_sweepPacket_iff now fset x).mp h with ⟨p, _, _, hx'⟩
      rw [← hx']
      exact congrArg Prod.snd (sweepCard_idem now p.2)
    · by_contra hflag
      have hflag' : (sweepCard now x).2 = true := by
        revert hflag
        cases (sweepCard now x).2 <;> simp
      rcases List.mem_map.mp h1 with ⟨p, hp, hpx⟩
      have hmem : (sweepCard now x).1 ∈ sweepPacket now fset :=
        (mem_sweepPacket_iff now fset _).mpr ⟨p, hp, by rw [hpx]; exact hflag', by rw [hpx]⟩
      exact h2 _ hmem (by rw [sweepCard_fst_id])

/-- C10: per user, running the sweep twice at the same instant on a
well-formed store leaves the store exactly as after the first run, and
the second run emits no reminder at all — in particular no batch entry
for a card the first run already flagged and reminded. -/
theorem c10_sweep_idempotent_same_instant (now : ℚ) (notifications : Bool)
    (fset : List (String × CardDict)) (hWF : WFStore fset) :
    (sweepUserPass now notifications (sweepUserPass now notifications fset).store).store =
      (sweepUserPass now notifications fset).store ∧
    (sweepUserPass now notifications (sweepUserPass now notifications fset).store).emitted =
      none := by
  cases notifications with
  | false => exact ⟨rfl, rfl⟩
  | true =>
    have hflags := store_flags_false_after_pass now fset hWF
    have hfil : ((sweepUserPass now true fset).store.map
        (fun p => (p.1, sweepCard now p.2))).filter (fun q => q.2.2) = [] := by
      apply List.filter_eq_nil_iff.mpr
      intro q hq
      rcases List.mem_map.mp hq with ⟨p, hp, hpq⟩
      have : (sweepCard now p.2).2 = false :=
        hflags p.2 (List.mem_map.mpr ⟨p, hp, rfl⟩)
      rw [← hpq]
      simp [this]
    have hpkt2 : sweepPacket now (sweepUserPass now true fset).store = [] := by
      rw [sweepPacket, hfil]
      rfl
    rw [sweepUserPass_true_of_packet_nil now _ hpkt2]
    exact ⟨rfl, rfl⟩

/-- C10 witness: the single-card store under key "a" is well-formed,
and the double sweep at time 100 with notifications enabled equals the
single sweep with nothing further emitted. -/
theorem c10_sweep_idempotent_same_instant_witness :
    WFStore [("a", cardDueAt0)] ∧
    ((sweepUserPass 100 true (sweepUserPass 100 true [("a", cardDueAt0)]).store).store =
      (sweepUserPass 100 true [("a", cardDueAt0)]).store ∧
    (sweepUserPass 100 true (sweepUserPass 100 true [("a", cardDueAt0)]).store).emitted =
      none) := by
  have hWF : WFStore [("a", cardDueAt0)] := by
    constructor
    · simp
    · intro p hp
      rw [List.mem_singleton] at hp
      rw [hp]
      rfl
  exact ⟨hWF, c10_sweep_idempotent_same_instant 100 true [("a", cardDueAt0)] hWF⟩

end Cardori
